import Mathlib

/-!
Shallow embedding of the discussion-forum backend (posts, threaded comments,
communities, voting).  The definitions below are translated from the
controllers in `src/controllers/{posts,comments,communities}.js` and the
Mongoose models in `src/models/{Post,Comment}.js` and the Community model.
Document ids are modelled as naturals; Mongo stores are lists of records;
each controller becomes a pure function returning `Except ApiError`, where
`ApiError` mirrors the distinct error responses of the code
(400 badRequest, 404 notFound, 401 unauthorized, and serverError for the
uncaught-exception path handled by the error middleware).
-/

abbrev UserId := Nat

abbrev PostId := Nat

abbrev CommentId := Nat

abbrev CommunityId := Nat

/-- The distinct error responses produced by the controllers: 400 responses
(`badRequest`), 404 responses (`notFound`), 401 responses (`unauthorized`),
and `serverError` for a thrown exception reaching the error middleware. -/
inductive ApiError where
  | badRequest (error : String)
  | notFound (error : String)
  | unauthorized (error : String)
  | serverError
deriving DecidableEq, Repr

/-- `PostSchema` of `src/models/Post.js`: title, optional content/image/url,
author, community, upvotes, downvotes, voteScore (default 0), commentCount
(default 0).  `createdAt` is omitted (no claim mentions time). -/
@[ext]
structure Post where
  id : PostId
  title : String
  content : String
  image : Option String
  url : Option String
  author : UserId
  community : CommunityId
  upvotes : List UserId
  downvotes : List UserId
  voteScore : Int
  commentCount : Int
deriving DecidableEq, Repr

/-- `CommentSchema` of `src/models/Comment.js`: content, author, post,
parent (default null), upvotes, downvotes, voteScore (default 0). -/
@[ext]
structure Comment where
  id : CommentId
  content : String
  author : UserId
  post : PostId
  parent : Option CommentId
  upvotes : List UserId
  downvotes : List UserId
  voteScore : Int
deriving DecidableEq, Repr

/-- `CommunitySchema` of `src/unnamed/part_000`: unique name, description,
slug (derived), creator, moderators, members, memberCount (default 0). -/
@[ext]
structure Community where
  id : CommunityId
  name : String
  description : String
  slug : String
  creator : UserId
  moderators : List UserId
  members : List UserId
  memberCount : Int
deriving DecidableEq, Repr

/-- `PostSchema.pre('save')` hook: `this.voteScore = this.upvotes.length -
this.downvotes.length`. -/
def postSave (p : Post) : Post :=
  { p with voteScore := (p.upvotes.length : Int) - (p.downvotes.length : Int) }

/-- `CommentSchema.pre('save')` hook: `this.voteScore = this.upvotes.length -
this.downvotes.length`. -/
def commentSave (c : Comment) : Comment :=
  { c with voteScore := (c.upvotes.length : Int) - (c.downvotes.length : Int) }

/-- The two `CommunitySchema.pre('save')` hooks: `this.slug = slugify(this.name,
lower)` (on the schema's `[a-zA-Z0-9_]+` names, slugify with the lower option
is lowercasing) and `this.memberCount = this.members.length`. -/
def communitySave (c : Community) : Community :=
  { c with slug := c.name.toLower,
           memberCount := (c.members.length : Int) }

/-- `votePost` of `src/controllers/posts.js` (lines 236-294), minus the
store lookup: value must be 1 or -1; an existing same-direction vote is
removed and not re-added (toggle), an opposite vote is replaced; then the
controller sets `voteScore = upvotes.length - downvotes.length` and
`post.save()` (the pre-save hook) recomputes the same value. -/
def votePost (p : Post) (userId : UserId) (value : Int) : Except ApiError Post :=
  if value ≠ 1 ∧ value ≠ -1 then
    .error (.badRequest "Vote value must be 1 or -1")
  else
    let upvoted : Bool := decide (userId ∈ p.upvotes)
    let downvoted : Bool := decide (userId ∈ p.downvotes)
    let upvotes1 := if upvoted then p.upvotes.filter (fun i => i != userId) else p.upvotes
    let downvotes1 := if downvoted then p.downvotes.filter (fun i => i != userId) else p.downvotes
    let addNew : Bool := (value == 1 && !upvoted) || (value == -1 && !downvoted)
    let upvotes2 := if addNew && value == 1 then upvotes1 ++ [userId] else upvotes1
    let downvotes2 := if addNew && value == -1 then downvotes1 ++ [userId] else downvotes1
    .ok (postSave { p with upvotes := upvotes2, downvotes := downvotes2,
                           voteScore := (upvotes2.length : Int) - (downvotes2.length : Int) })

/-- `voteComment` of `src/controllers/comments.js` (lines 130-188), minus the
store lookup; same algorithm as `votePost`. -/
def voteComment (c : Comment) (userId : UserId) (value : Int) : Except ApiError Comment :=
  if value ≠ 1 ∧ value ≠ -1 then
    .error (.badRequest "Vote value must be 1 or -1")
  else
    let upvoted : Bool := decide (userId ∈ c.upvotes)
    let downvoted : Bool := decide (userId ∈ c.downvotes)
    let upvotes1 := if upvoted then c.upvotes.filter (fun i => i != userId) else c.upvotes
    let downvotes1 := if downvoted then c.downvotes.filter (fun i => i != userId) else c.downvotes
    let addNew : Bool := (value == 1 && !upvoted) || (value == -1 && !downvoted)
    let upvotes2 := if addNew && value == 1 then upvotes1 ++ [userId] else upvotes1
    let downvotes2 := if addNew && value == -1 then downvotes1 ++ [userId] else downvotes1
    .ok (commentSave { c with upvotes := upvotes2, downvotes := downvotes2,
                              voteScore := (upvotes2.length : Int) - (downvotes2.length : Int) })

/-- State transition of a post under one vote request: the updated document on
success, the unchanged document when the request is rejected. -/
def votePostStep (p : Post) (userId : UserId) (value : Int) : Post :=
  match votePost p userId value with
  | .ok p1 => p1
  | .error _ => p

/-- State transition of a comment under one vote request. -/
def voteCommentStep (c : Comment) (userId : UserId) (value : Int) : Comment :=
  match voteComment c userId value with
  | .ok c1 => c1
  | .error _ => c

/-- `Post.create` in `createPost` (`src/controllers/posts.js`): schema
defaults (`upvotes = []`, `downvotes = []`, `voteScore = 0`,
`commentCount = 0`) followed by the pre-save hook. -/
def createPost (id : PostId) (title content : String) (author : UserId)
    (community : CommunityId) : Post :=
  postSave { id := id, title := title, content := content, image := none,
             url := none, author := author, community := community,
             upvotes := [], downvotes := [], voteScore := 0, commentCount := 0 }

/-- `Community.create` in `createCommunity` (`src/controllers/communities.js`
lines 136-170): the requesting user is seeded as creator, sole moderator and
sole member, then the pre-save hooks run. -/
def createCommunity (id : CommunityId) (name description : String)
    (creator : UserId) : Community :=
  communitySave { id := id, name := name, description := description,
                  slug := "", creator := creator, moderators := [creator],
                  members := [creator], memberCount := 0 }

/-- `joinCommunity` of `src/controllers/communities.js` (lines 216-248), minus
the store lookup: 400 if already a member, otherwise push onto `members`,
save (pre-save hooks), and respond with `community.members.length`. -/
def joinCommunity (c : Community) (userId : UserId) :
    Except ApiError (Community × Int) :=
  if userId ∈ c.members then
    .error (.badRequest "User is already a member of this community")
  else
    let c1 := communitySave { c with members := c.members ++ [userId] }
    .ok (c1, (c1.members.length : Int))

/-- `leaveCommunity` of `src/controllers/communities.js` (lines 253-299), minus
the store lookup: 400 if not a member, 400 if the requesting user is the
creator, otherwise filter the user out of `members` (and out of `moderators`
when present), save, and respond with `community.members.length`. -/
def leaveCommunity (c : Community) (userId : UserId) :
    Except ApiError (Community × Int) :=
  if userId ∉ c.members then
    .error (.badRequest "User is not a member of this community")
  else if c.creator = userId then
    .error (.badRequest "Creator cannot leave the community")
  else
    let members1 := c.members.filter (fun i => i != userId)
    let moderators1 :=
      if userId ∈ c.moderators then c.moderators.filter (fun i => i != userId)
      else c.moderators
    let c1 := communitySave { c with members := members1, moderators := moderators1 }
    .ok (c1, (c1.members.length : Int))

/-- State transition of a community under one join request. -/
def joinStep (c : Community) (userId : UserId) : Community :=
  match joinCommunity c userId with
  | .ok r => r.1
  | .error _ => c

/-- State transition of a community under one leave request. -/
def leaveStep (c : Community) (userId : UserId) : Community :=
  match leaveCommunity c userId with
  | .ok r => r.1
  | .error _ => c

/-- A membership mutation: a join or a leave request by some user. -/
inductive MembershipOp where
  | join (userId : UserId)
  | leave (userId : UserId)
deriving DecidableEq, Repr

/-- State transition of a community under one membership request. -/
def membershipStep (c : Community) (op : MembershipOp) : Community :=
  match op with
  | .join u => joinStep c u
  | .leave u => leaveStep c u

/-- `addComment` of `src/controllers/posts.js` (lines 357-398): 404 if the
post does not exist; otherwise `Comment.create` with
`parent = req.body.parent || null` (no existence check on the parent; the
pre-save hook runs on the new comment), then `commentCount += 1` and
`post.save()`.  The express-validator middleware (routes layer) runs before
this controller and is not part of it.  `newId` stands for the id Mongo
assigns to the created document. -/
def addComment (posts : List Post) (comments : List Comment) (postId : PostId)
    (actorId : UserId) (content : String) (parent : Option CommentId)
    (newId : CommentId) :
    Except ApiError (Comment × List Post × List Comment) :=
  match posts.find? (fun p => p.id == postId) with
  | none => .error (.notFound "Post not found")
  | some post =>
    let comment := commentSave { id := newId, content := content,
                                 author := actorId, post := postId,
                                 parent := parent, upvotes := [],
                                 downvotes := [], voteScore := 0 }
    let post1 := postSave { post with commentCount := post.commentCount + 1 }
    .ok (comment,
         posts.map (fun q => if q.id == post.id then post1 else q),
         comments ++ [comment])

/-- `deleteComment` of `src/controllers/comments.js` (lines 82-125): 404 if
the comment does not exist; looking up the owning post without a null check
(`post.author` throws when the post is missing, reaching the error
middleware, modelled as `serverError`); 401 unless the actor is the comment
author or the post author; then `Comment.deleteMany(parent = comment._id)`,
`commentCount -= 1`, `repliesCount = countDocuments(parent = comment._id)`
evaluated on the store after that deletion, `commentCount -= repliesCount`,
`post.save()`, and finally `comment.remove()`. -/
def deleteComment (actorId : UserId) (commentId : CommentId)
    (comments : List Comment) (posts : List Post) :
    Except ApiError (List Comment × List Post) :=
  match comments.find? (fun c => c.id == commentId) with
  | none => .error (.notFound "Comment not found")
  | some comment =>
    match posts.find? (fun p => p.id == comment.post) with
    | none => .error .serverError
    | some post =>
      if comment.author ≠ actorId ∧ post.author ≠ actorId then
        .error (.unauthorized "Not authorized to delete this comment")
      else
        let comments1 := comments.filter (fun c => c.parent != some comment.id)
        let repliesCount := (comments1.filter (fun c => c.parent == some comment.id)).length
        let post1 := postSave { post with
          commentCount := post.commentCount - 1 - (repliesCount : Int) }
        let posts1 := posts.map (fun q => if q.id == post.id then post1 else q)
        let comments2 := comments1.filter (fun c => c.id != comment.id)
        .ok (comments2, posts1)

/-- State transition of the comment and post stores under one delete-comment
request: unchanged when the request is rejected. -/
def deleteCommentStep (actorId : UserId) (commentId : CommentId)
    (comments : List Comment) (posts : List Post) : List Comment × List Post :=
  match deleteComment actorId commentId comments posts with
  | .ok r => r
  | .error _ => (comments, posts)

/-- `deletePost` of `src/controllers/posts.js` (lines 197-231): 404 if the
post does not exist; looking up the community without a null check
(`community.moderators` throws when it is missing, modelled as
`serverError`); 401 unless the actor is the post author or a community
moderator; then `Comment.deleteMany(post = postId)` and `post.remove()`. -/
def deletePost (actorId : UserId) (postId : PostId) (posts : List Post)
    (comments : List Comment) (communities : List Community) :
    Except ApiError (List Post × List Comment) :=
  match posts.find? (fun p => p.id == postId) with
  | none => .error (.notFound "Post not found")
  | some post =>
    match communities.find? (fun co => co.id == post.community) with
    | none => .error .serverError
    | some community =>
      if post.author ≠ actorId ∧ actorId ∉ community.moderators then
        .error (.unauthorized "Not authorized to delete this post")
      else
        let comments1 := comments.filter (fun c => c.post != postId)
        let posts1 := posts.filter (fun p => p.id != post.id)
        .ok (posts1, comments1)

/-- State transition of the post and comment stores under one delete-post
request: unchanged when the request is rejected. -/
def deletePostStep (actorId : UserId) (postId : PostId) (posts : List Post)
    (comments : List Comment) (communities : List Community) :
    List Post × List Comment :=
  match deletePost actorId postId posts comments communities with
  | .ok r => r
  | .error _ => (posts, comments)

/-- The fields of a `PUT /api/posts/:id` request body that name schema paths;
a field is `some` when it is present in the body.  `req.body` is passed to
`Post.findByIdAndUpdate` wholesale, so author and community are ordinary
updatable paths. -/
structure PostUpdateBody where
  title : Option String := none
  content : Option String := none
  image : Option String := none
  url : Option String := none
  author : Option UserId := none
  community : Option CommunityId := none
deriving DecidableEq, Repr

/-- `updatePost` of `src/controllers/posts.js` (lines 161-192), minus the
store lookup: 401 unless the actor is the post author, then
`findByIdAndUpdate(id, req.body, runValidators)`, which sets every path
present in the body (no pre-save hook runs on this code path) after the
update validators pass (title maxlength 300 is the one modelled). -/
def updatePost (p : Post) (actorId : UserId) (body : PostUpdateBody) :
    Except ApiError Post :=
  if p.author ≠ actorId then
    .error (.unauthorized "Not authorized to update this post")
  else if body.title.any (fun t => t.length > 300) then
    .error (.badRequest "ValidationError")
  else
    .ok { p with title := body.title.getD p.title,
                 content := body.content.getD p.content,
                 image := match body.image with | some s => some s | none => p.image,
                 url := match body.url with | some s => some s | none => p.url,
                 author := body.author.getD p.author,
                 community := body.community.getD p.community }

/-- State of a post after one update request: unchanged when rejected. -/
def updatePostStep (p : Post) (actorId : UserId) (body : PostUpdateBody) : Post :=
  match updatePost p actorId body with
  | .ok p1 => p1
  | .error _ => p

/-- A JSON value that a request body can carry in its `name` field: a
string, a boolean, a number, or an explicit null.  `req.body` is parsed
JSON, so non-string primitives reach the controller unchanged. -/
inductive BodyValue where
  | str (s : String)
  | boolean (b : Bool)
  | num (n : Int)
  | nullValue
deriving DecidableEq, Repr

/-- JS truthiness of a JSON value, as tested by `if (req.body.name)`:
a string is truthy unless empty, a boolean iff true, a number unless 0,
null never. -/
def BodyValue.truthy : BodyValue → Bool
  | .str s => s != ""
  | .boolean b => b
  | .num n => n != 0
  | .nullValue => false

/-- Mongoose's cast of a JSON value to a String schema path: strings pass
through, booleans and numbers are cast via `toString()` (so `false` becomes
the string "false"), and null stays null (`none` here), which then fails
the path's `required` validator. -/
def BodyValue.castString : BodyValue → Option String
  | .str s => some s
  | .boolean b => some (if b then "true" else "false")
  | .num n => some (toString n)
  | .nullValue => none

/-- The schema-path fields of a `PUT /api/communities/:name` request body;
`name` may carry any JSON primitive. -/
structure CommunityUpdateBody where
  name : Option BodyValue := none
  description : Option String := none
deriving DecidableEq, Repr

/-- The `name` validators of the Community schema: 3 to 21 characters from
`[a-zA-Z0-9_]`. -/
def communityNameValid (s : String) : Bool :=
  3 ≤ s.length && s.length ≤ 21 && s.toList.all (fun ch => ch.isAlphanum || ch == '_')

/-- `updateCommunity` of `src/controllers/communities.js` (lines 175-211),
minus the store lookup: 401 unless the actor is a moderator; then
`if (req.body.name) delete req.body.name` (a JS-truthy name is stripped —
but a falsy one, such as the JSON boolean `false`, the number `0`, `null`
or the empty string, survives the strip), and
`findByIdAndUpdate(id, req.body, runValidators)`: a surviving name is cast
by Mongoose to a string (null stays null and fails the `required`
validator) and must pass the schema's name validators, else the whole
update is rejected; otherwise every remaining present path is set (no
pre-save hook runs). -/
def updateCommunity (c : Community) (actorId : UserId)
    (body : CommunityUpdateBody) : Except ApiError Community :=
  if actorId ∉ c.moderators then
    .error (.unauthorized "Not authorized to update this community")
  else
    let body1 := match body.name with
      | some v => if v.truthy then { body with name := none } else body
      | none => body
    let descOk := match body1.description with
      | some s => decide (s.length ≤ 500)
      | none => true
    match body1.name with
    | none =>
      if descOk then
        .ok { c with description := body1.description.getD c.description }
      else
        .error (.badRequest "ValidationError")
    | some v =>
      match v.castString with
      | none => .error (.badRequest "ValidationError")
      | some s =>
        if communityNameValid s && descOk then
          .ok { c with name := s,
                       description := body1.description.getD c.description }
        else
          .error (.badRequest "ValidationError")

/-- State of a community after one update request: unchanged when rejected. -/
def updateCommunityStep (c : Community) (actorId : UserId)
    (body : CommunityUpdateBody) : Community :=
  match updateCommunity c actorId body with
  | .ok c1 => c1
  | .error _ => c

/-- A concrete post with no votes and no comments, used to instantiate the
universally quantified theorems. -/
def examplePost : Post :=
  { id := 1, title := "t", content := "", image := none, url := none,
    author := 1, community := 1, upvotes := [], downvotes := [],
    voteScore := 0, commentCount := 0 }

/-- A concrete comment with no votes. -/
def exampleComment : Comment :=
  { id := 1, content := "hello", author := 1, post := 1, parent := none,
    upvotes := [], downvotes := [], voteScore := 0 }

/-- A concrete community: creator 1 (also the sole moderator), member 2. -/
def exampleCommunity : Community :=
  { id := 1, name := "foo", description := "d", slug := "foo", creator := 1,
    moderators := [1], members := [1, 2], memberCount := 2 }

/-- A concrete post on which user 5 currently holds a downvote. -/
def downvotedPost : Post :=
  { id := 2, title := "t", content := "", image := none, url := none,
    author := 10, community := 1, upvotes := [], downvotes := [5],
    voteScore := -1, commentCount := 0 }

/-- The post owning the three-level comment chain below; its `commentCount`
is 3, matching its three comments. -/
def chainPost : Post :=
  { id := 1, title := "t", content := "", image := none, url := none,
    author := 10, community := 1, upvotes := [], downvotes := [],
    voteScore := 0, commentCount := 3 }

/-- Top-level comment of the three-level chain (written by the actor). -/
def chainC1 : Comment :=
  { id := 1, content := "a", author := 10, post := 1, parent := none,
    upvotes := [], downvotes := [], voteScore := 0 }

/-- Reply to `chainC1`. -/
def chainC2 : Comment :=
  { id := 2, content := "b", author := 11, post := 1, parent := some 1,
    upvotes := [], downvotes := [], voteScore := 0 }

/-- Reply to `chainC2` (a grand-reply of `chainC1`). -/
def chainC3 : Comment :=
  { id := 3, content := "c", author := 12, post := 1, parent := some 2,
    upvotes := [], downvotes := [], voteScore := 0 }

/-! ## Helper lemmas -/

theorem filter_bne_of_not_mem (l : List Nat) (u : Nat) (h : u ∉ l) :
    l.filter (fun i => i != u) = l := by
  refine List.filter_eq_self.mpr ?_
  intro a ha
  simp only [bne_iff_ne, ne_eq, decide_eq_true_eq]
  exact fun e => h (e ▸ ha)

theorem filter_bne_append_self (l : List Nat) (u : Nat) :
    (l ++ [u]).filter (fun i => i != u) = l.filter (fun i => i != u) := by
  simp [List.filter_append]

theorem vote_same_twice_post_aux (p : Post) (u : UserId) (v : Int)
    (hv : v = 1 ∨ v = -1)
    (hup : u ∉ p.upvotes) (hdown : u ∉ p.downvotes)
    (hinv : p.voteScore = (p.upvotes.length : Int) - (p.downvotes.length : Int)) :
    votePostStep (votePostStep p u v) u v = p := by
  rcases hv with rfl | rfl
  · have h1 : votePostStep p u 1 = postSave { p with upvotes := p.upvotes ++ [u] } := by
      simp [votePostStep, votePost, postSave, hup, hdown]
    rw [h1]
    simp [votePostStep, votePost, postSave, hdown, filter_bne_append_self,
          filter_bne_of_not_mem _ _ hup]
    ext <;> simp [hinv.symm]
  · have h1 : votePostStep p u (-1) = postSave { p with downvotes := p.downvotes ++ [u] } := by
      simp [votePostStep, votePost, postSave, hup, hdown]
    rw [h1]
    simp [votePostStep, votePost, postSave, hup, filter_bne_append_self,
          filter_bne_of_not_mem _ _ hdown]
    ext <;> simp [hinv.symm]

theorem vote_same_twice_comment_aux (c : Comment) (u : UserId) (v : Int)
    (hv : v = 1 ∨ v = -1)
    (hup : u ∉ c.upvotes) (hdown : u ∉ c.downvotes)
    (hinv : c.voteScore = (c.upvotes.length : Int) - (c.downvotes.length : Int)) :
    voteCommentStep (voteCommentStep c u v) u v = c := by
  rcases hv with rfl | rfl
  · have h1 : voteCommentStep c u 1 = commentSave { c with upvotes := c.upvotes ++ [u] } := by
      simp [voteCommentStep, voteComment, commentSave, hup, hdown]
    rw [h1]
    simp [voteCommentStep, voteComment, commentSave, hdown, filter_bne_append_self,
          filter_bne_of_not_mem _ _ hup]
    ext <;> simp [hinv.symm]
  · have h1 : voteCommentStep c u (-1) = commentSave { c with downvotes := c.downvotes ++ [u] } := by
      simp [voteCommentStep, voteComment, commentSave, hup, hdown]
    rw [h1]
    simp [voteCommentStep, voteComment, commentSave, hup, filter_bne_append_self,
          filter_bne_of_not_mem _ _ hdown]
    ext <;> simp [hinv.symm]

theorem votePostStep_score_inv (p : Post) (u : UserId) (v : Int)
    (h : p.voteScore = (p.upvotes.length : Int) - (p.downvotes.length : Int)) :
    (votePostStep p u v).voteScore =
      ((votePostStep p u v).upvotes.length : Int) -
      ((votePostStep p u v).downvotes.length : Int) := by
  by_cases hv : v ≠ 1 ∧ v ≠ -1
  · simpa [votePostStep, votePost, hv] using h
  · simp [votePostStep, votePost, hv, postSave]

theorem voteCommentStep_score_inv (c : Comment) (u : UserId) (v : Int)
    (h : c.voteScore = (c.upvotes.length : Int) - (c.downvotes.length : Int)) :
    (voteCommentStep c u v).voteScore =
      ((voteCommentStep c u v).upvotes.length : Int) -
      ((voteCommentStep c u v).downvotes.length : Int) := by
  by_cases hv : v ≠ 1 ∧ v ≠ -1
  · simpa [voteCommentStep, voteComment, hv] using h
  · simp [voteCommentStep, voteComment, hv, commentSave]

theorem vote_fold_post_inv (ops : List (UserId × Int)) (p : Post)
    (h : p.voteScore = (p.upvotes.length : Int) - (p.downvotes.length : Int)) :
    (ops.foldl (fun q uv => votePostStep q uv.1 uv.2) p).voteScore =
      (((ops.foldl (fun q uv => votePostStep q uv.1 uv.2) p).upvotes.length : Int) -
       ((ops.foldl (fun q uv => votePostStep q uv.1 uv.2) p).downvotes.length : Int)) := by
  induction ops generalizing p with
  | nil => exact h
  | cons op rest ih => exact ih _ (votePostStep_score_inv p op.1 op.2 h)

theorem vote_fold_comment_inv (ops : List (UserId × Int)) (c : Comment)
    (h : c.voteScore = (c.upvotes.length : Int) - (c.downvotes.length : Int)) :
    (ops.foldl (fun d uv => voteCommentStep d uv.1 uv.2) c).voteScore =
      (((ops.foldl (fun d uv => voteCommentStep d uv.1 uv.2) c).upvotes.length : Int) -
       ((ops.foldl (fun d uv => voteCommentStep d uv.1 uv.2) c).downvotes.length : Int)) := by
  induction ops generalizing c with
  | nil => exact h
  | cons op rest ih => exact ih _ (voteCommentStep_score_inv c op.1 op.2 h)

/-! ## Claim theorems -/

/-- C3 counterexample: a post on which user 5 already holds a downvote.
User 5 casts the vote value 1 twice in succession; the resulting voteScore
is 0, not the pre-vote value -1, so the claim as stated fails (the first
vote silently removed the opposite vote, which the retraction does not put
back). -/
theorem vote_same_value_twice_cex :
    (votePostStep (votePostStep downvotedPost 5 1) 5 1).voteScore ≠
      downvotedPost.voteScore := by decide

/-- C3 (amended): for every post and comment whose voteScore matches its
vote sets and every actor with no existing vote on the target, casting the
same valid vote value twice in succession restores the target exactly
(in particular the actor ends with no vote and voteScore returns to its
pre-vote value). -/
theorem vote_same_value_twice_toggles_off (p : Post) (c : Comment)
    (u : UserId) (v : Int) (hv : v = 1 ∨ v = -1)
    (hpu : u ∉ p.upvotes) (hpd : u ∉ p.downvotes)
    (hcu : u ∉ c.upvotes) (hcd : u ∉ c.downvotes)
    (hpinv : p.voteScore = (p.upvotes.length : Int) - (p.downvotes.length : Int))
    (hcinv : c.voteScore = (c.upvotes.length : Int) - (c.downvotes.length : Int)) :
    votePostStep (votePostStep p u v) u v = p ∧
    voteCommentStep (voteCommentStep c u v) u v = c :=
  ⟨vote_same_twice_post_aux p u v hv hpu hpd hpinv,
   vote_same_twice_comment_aux c u v hv hcu hcd hcinv⟩

/-- C3 witness: the amended theorem applied to a concrete post and comment
with no votes and actor 5. -/
theorem vote_same_value_twice_toggles_off_witness :
    (5 ∉ examplePost.upvotes) ∧ (5 ∉ exampleComment.upvotes) ∧
    votePostStep (votePostStep examplePost 5 1) 5 1 = examplePost ∧
    voteCommentStep (voteCommentStep exampleComment 5 1) 5 1 = exampleComment := by
  have h := vote_same_value_twice_toggles_off examplePost exampleComment 5 1
    (Or.inl rfl) (by decide) (by decide) (by decide) (by decide)
    (by decide) (by decide)
  exact ⟨by decide, by decide, h.1, h.2⟩

/-- C6: for every post and comment whose voteScore equals the difference of
its vote-set sizes, the same holds after any finite sequence of vote
operations (each operation, successful or rejected, leaves the equality in
force); newly created posts satisfy it as well. -/
theorem vote_score_equals_set_difference (p : Post) (c : Comment)
    (ops : List (UserId × Int)) (pid : PostId) (title content : String)
    (a : UserId) (co : CommunityId)
    (hp : p.voteScore = (p.upvotes.length : Int) - (p.downvotes.length : Int))
    (hc : c.voteScore = (c.upvotes.length : Int) - (c.downvotes.length : Int)) :
    ((ops.foldl (fun q uv => votePostStep q uv.1 uv.2) p).voteScore =
      (((ops.foldl (fun q uv => votePostStep q uv.1 uv.2) p).upvotes.length : Int) -
       ((ops.foldl (fun q uv => votePostStep q uv.1 uv.2) p).downvotes.length : Int))) ∧
    ((ops.foldl (fun d uv => voteCommentStep d uv.1 uv.2) c).voteScore =
      (((ops.foldl (fun d uv => voteCommentStep d uv.1 uv.2) c).upvotes.length : Int) -
       ((ops.foldl (fun d uv => voteCommentStep d uv.1 uv.2) c).downvotes.length : Int))) ∧
    ((createPost pid title content a co).voteScore =
      (((createPost pid title content a co).upvotes.length : Int) -
       ((createPost pid title content a co).downvotes.length : Int))) :=
  ⟨vote_fold_post_inv ops p hp, vote_fold_comment_inv ops c hc, by simp [createPost, postSave]⟩

/-- C6 witness: the invariant theorem applied to a concrete post and comment
and the vote sequence [(5, 1), (6, -1), (5, 1)]. -/
theorem vote_score_equals_set_difference_witness :
    (examplePost.voteScore =
      (examplePost.upvotes.length : Int) - (examplePost.downvotes.length : Int)) ∧
    (([((5 : UserId), (1 : Int)), (6, -1), (5, 1)].foldl
        (fun q uv => votePostStep q uv.1 uv.2) examplePost).voteScore =
      ((([((5 : UserId), (1 : Int)), (6, -1), (5, 1)].foldl
          (fun q uv => votePostStep q uv.1 uv.2) examplePost).upvotes.length : Int) -
       (([((5 : UserId), (1 : Int)), (6, -1), (5, 1)].foldl
          (fun q uv => votePostStep q uv.1 uv.2) examplePost).downvotes.length : Int))) := by
  have h := vote_score_equals_set_difference examplePost exampleComment
    [((5 : UserId), (1 : Int)), (6, -1), (5, 1)] 1 "t" "" 1 1
    (by decide) (by decide)
  exact ⟨by decide, h.1⟩

/-- C1 (behavior of the code on the spec's three-level chain): deleting the
root of the chain C1 <- C2 <- C3 via `deleteComment` removes only C1 and its
direct reply C2 — the grand-reply C3 survives — and decrements the post's
commentCount by exactly 1 (from 3 to 2), because `repliesCount` is counted
after `deleteMany` has already removed the direct replies. -/
theorem deleteComment_three_level_chain :
    deleteComment 10 1 [chainC1, chainC2, chainC3] [chainPost] =
      .ok ([chainC3], [{ chainPost with commentCount := 2 }]) := rfl

/-- C2 counterexample: post 1 exists with commentCount 0 and the comment
store is empty, so parent id 99 does not exist; yet `addComment` with
parentId 99 succeeds, creates the comment with the dangling parent, and
increments commentCount to 1. -/
theorem addComment_missing_parent_cex :
    addComment [examplePost] [] 1 7 "hi" (some 99) 5 =
      .ok ({ id := 5, content := "hi", author := 7, post := 1,
             parent := some 99, upvotes := [], downvotes := [], voteScore := 0 },
           [{ examplePost with commentCount := 1 }],
           [{ id := 5, content := "hi", author := 7, post := 1,
              parent := some 99, upvotes := [], downvotes := [], voteScore := 0 }]) := rfl

/-- C2 (amended): `addComment` fails with NotFound only when the post does
not exist; a supplied parentId is never checked, so even when no comment
with that id exists the comment is created with the dangling parent and the
post's commentCount is incremented. -/
theorem addComment_parent_unchecked (posts : List Post) (comments : List Comment)
    (postId : PostId) (actor : UserId) (content : String) (pid : CommentId)
    (newId : CommentId) (post : Post)
    (hfind : posts.find? (fun p => p.id == postId) = some post)
    (_hnoparent : ∀ c ∈ comments, c.id ≠ pid) :
    ∃ newComment posts1,
      addComment posts comments postId actor content (some pid) newId =
        .ok (newComment, posts1, comments ++ [newComment]) ∧
      newComment.parent = some pid ∧
      posts1 = posts.map (fun q => if q.id == post.id then
        postSave { post with commentCount := post.commentCount + 1 } else q) := by
  refine ⟨commentSave ⟨newId, content, actor, postId, some pid, [], [], 0⟩,
    posts.map (fun q => if q.id == post.id then
      postSave { post with commentCount := post.commentCount + 1 } else q),
    ?_, rfl, rfl⟩
  simp only [addComment, hfind]

/-- C2 witness: the amended theorem at post 1, empty comment store, parent
id 99. -/
theorem addComment_parent_unchecked_witness :
    ([examplePost].find? (fun p => p.id == 1) = some examplePost) ∧
    (∃ newComment posts1,
      addComment [examplePost] [] 1 7 "hi" (some 99) 5 =
        .ok (newComment, posts1, [] ++ [newComment]) ∧
      newComment.parent = some 99 ∧
      posts1 = [examplePost].map (fun q => if q.id == examplePost.id then
        postSave { examplePost with commentCount := examplePost.commentCount + 1 } else q)) := by
  refine ⟨rfl, ?_⟩
  exact addComment_parent_unchecked [examplePost] [] 1 7 "hi" 99 5 examplePost rfl
    (by intro c hc; cases hc)

/-- C4 counterexample: a body containing an author field is passed wholesale
to `findByIdAndUpdate`, so a successful update by the author changes
`post.author` (from 1 to 2 here), contradicting the claimed immutability. -/
theorem updatePost_author_mutable_cex :
    updatePost examplePost 1 { author := some 2 } =
      .ok { examplePost with author := 2 } ∧
    ({ examplePost with author := 2 } : Post).author ≠ examplePost.author :=
  ⟨rfl, by decide⟩

/-- C4 (amended): `updatePost` leaves `author` and `community` unchanged
provided the request body contains neither an author nor a community field
(the controller forwards the whole body, so those fields are only preserved
when absent). -/
theorem updatePost_frame (p : Post) (actor : UserId) (body : PostUpdateBody)
    (ha : body.author = none) (hc : body.community = none) :
    (updatePostStep p actor body).author = p.author ∧
    (updatePostStep p actor body).community = p.community := by
  simp only [updatePostStep, updatePost]
  split_ifs <;> simp [ha, hc]

/-- C4 witness: the amended frame theorem at a concrete post and a body
updating only the title. -/
theorem updatePost_frame_witness :
    (({ title := some "new" } : PostUpdateBody).author = none) ∧
    (updatePostStep examplePost 1 { title := some "new" }).author = examplePost.author ∧
    (updatePostStep examplePost 1 { title := some "new" }).community = examplePost.community := by
  have h := updatePost_frame examplePost 1 { title := some "new" } rfl rfl
  exact ⟨rfl, h.1, h.2⟩

theorem leaveStep_creator (c : Community) (a : UserId) :
    (leaveStep c a).creator = c.creator := by
  by_cases h1 : a ∈ c.members
  · by_cases h2 : c.creator = a
    · simp [leaveStep, leaveCommunity, h1, h2]
    · simp [leaveStep, leaveCommunity, h1, h2, communitySave]
  · simp [leaveStep, leaveCommunity, h1]

theorem leaveStep_creator_mem (c : Community) (a : UserId)
    (h : c.creator ∈ c.members) : c.creator ∈ (leaveStep c a).members := by
  by_cases h1 : a ∈ c.members
  · by_cases h2 : c.creator = a
    · simp [leaveStep, leaveCommunity, h1, h2]
    · simp [leaveStep, leaveCommunity, h1, h2, communitySave,
            List.mem_filter, bne_iff_ne]
      exact h
  · simpa [leaveStep, leaveCommunity, h1] using h

/-- C5: when the creator belongs to the members set (as is the case from
creation onward), a leave request by the creator is rejected by the
dedicated creator-cannot-leave branch and changes nothing; moreover no
finite sequence of leave requests, by any actors, ever removes the creator
from the members set. -/
theorem leave_creator_forbidden (c : Community) (actors : List UserId)
    (h : c.creator ∈ c.members) :
    (leaveCommunity c c.creator =
        .error (.badRequest "Creator cannot leave the community") ∧
      leaveStep c c.creator = c) ∧
    c.creator ∈ (actors.foldl leaveStep c).members := by
  refine ⟨⟨?_, ?_⟩, ?_⟩
  · simp [leaveCommunity, h]
  · simp [leaveStep, leaveCommunity, h]
  · induction actors generalizing c with
    | nil => exact h
    | cons a rest ih =>
      have hcr : (leaveStep c a).creator = c.creator := leaveStep_creator c a
      have hmem : (leaveStep c a).creator ∈ (leaveStep c a).members := by
        rw [hcr]; exact leaveStep_creator_mem c a h
      have := ih (leaveStep c a) hmem
      rw [hcr] at this
      exact this

/-- C5 witness: the community created by user 1 with member 2; user 2 then
user 1 issue leave requests. -/
theorem leave_creator_forbidden_witness :
    (exampleCommunity.creator ∈ exampleCommunity.members) ∧
    leaveCommunity exampleCommunity exampleCommunity.creator =
      .error (.badRequest "Creator cannot leave the community") ∧
    exampleCommunity.creator ∈
      ([2, 1].foldl leaveStep exampleCommunity).members := by
  have h := leave_creator_forbidden exampleCommunity [2, 1] (by decide)
  exact ⟨by decide, h.1.1, h.2⟩

theorem joinStep_count_inv (c : Community) (u : UserId)
    (h : c.memberCount = (c.members.length : Int)) :
    (joinStep c u).memberCount = ((joinStep c u).members.length : Int) := by
  by_cases h1 : u ∈ c.members
  · simpa [joinStep, joinCommunity, h1] using h
  · simp [joinStep, joinCommunity, h1, communitySave]

theorem leaveStep_count_inv (c : Community) (u : UserId)
    (h : c.memberCount = (c.members.length : Int)) :
    (leaveStep c u).memberCount = ((leaveStep c u).members.length : Int) := by
  by_cases h1 : u ∈ c.members
  · by_cases h2 : c.creator = u
    · simpa [leaveStep, leaveCommunity, h1, h2] using h
    · simp [leaveStep, leaveCommunity, h1, h2, communitySave]
  · simpa [leaveStep, leaveCommunity, h1] using h

theorem membershipStep_count_inv (c : Community) (op : MembershipOp)
    (h : c.memberCount = (c.members.length : Int)) :
    (membershipStep c op).memberCount =
      ((membershipStep c op).members.length : Int) := by
  cases op with
  | join u => exact joinStep_count_inv c u h
  | leave u => exact leaveStep_count_inv c u h

/-- C7: starting from any community whose memberCount equals the size of its
members set (newly created communities satisfy this), the equality still
holds after any finite sequence of join and leave requests, and the
memberCount returned by a successful join or leave equals the size of the
members set after the mutation. -/
theorem member_count_equals_members (c : Community) (ops : List MembershipOp)
    (cid : CommunityId) (nm ds : String) (cr : UserId)
    (h : c.memberCount = (c.members.length : Int)) :
    ((ops.foldl membershipStep c).memberCount =
      ((ops.foldl membershipStep c).members.length : Int)) ∧
    (∀ u c1 n, joinCommunity c u = .ok (c1, n) →
      n = (c1.members.length : Int) ∧ c1.memberCount = (c1.members.length : Int)) ∧
    (∀ u c1 n, leaveCommunity c u = .ok (c1, n) →
      n = (c1.members.length : Int) ∧ c1.memberCount = (c1.members.length : Int)) ∧
    ((createCommunity cid nm ds cr).memberCount =
      ((createCommunity cid nm ds cr).members.length : Int)) := by
  refine ⟨?_, ?_, ?_, by simp [createCommunity, communitySave]⟩
  · induction ops generalizing c with
    | nil => exact h
    | cons op rest ih => exact ih _ (membershipStep_count_inv c op h)
  · intro u c1 n hj
    by_cases h1 : u ∈ c.members
    · simp [joinCommunity, h1] at hj
    · simp [joinCommunity, h1] at hj
      obtain ⟨h2, h3⟩ := hj
      subst h2
      subst h3
      simp [communitySave]
  · intro u c1 n hl
    by_cases h1 : u ∈ c.members
    · by_cases h2 : c.creator = u
      · simp [leaveCommunity, h1, h2] at hl
      · simp [leaveCommunity, h1, h2] at hl
        obtain ⟨h3, h4⟩ := hl
        subst h3
        subst h4
        simp [communitySave]
    · simp [leaveCommunity, h1] at hl

/-- C7 witness: the concrete community (memberCount 2, members of size 2)
under the sequence: user 3 joins, user 2 leaves. -/
theorem member_count_equals_members_witness :
    (exampleCommunity.memberCount = (exampleCommunity.members.length : Int)) ∧
    (([MembershipOp.join 3, MembershipOp.leave 2].foldl membershipStep
        exampleCommunity).memberCount =
      (([MembershipOp.join 3, MembershipOp.leave 2].foldl membershipStep
        exampleCommunity).members.length : Int)) := by
  have h := member_count_equals_members exampleCommunity
    [MembershipOp.join 3, MembershipOp.leave 2] 1 "foo" "d" 1 (by decide)
  exact ⟨by decide, h.1⟩

/-- C8: given that the target exists (and, as the code assumes, the post's
community respectively the comment's owning post exists), deleting a post
succeeds exactly when the actor is the post author or a community
moderator, and deleting a comment succeeds exactly when the actor is the
comment author or the owning post's author; otherwise the request is
rejected with the not-authorized response and both stores are left
unchanged. -/
theorem delete_authorization (posts : List Post) (comments : List Comment)
    (communities : List Community) (actor : UserId) :
    (∀ pid post community,
      posts.find? (fun p => p.id == pid) = some post →
      communities.find? (fun co => co.id == post.community) = some community →
      ((∃ r, deletePost actor pid posts comments communities = .ok r) ↔
        (post.author = actor ∨ actor ∈ community.moderators)) ∧
      (¬(post.author = actor ∨ actor ∈ community.moderators) →
        deletePost actor pid posts comments communities =
          .error (.unauthorized "Not authorized to delete this post") ∧
        deletePostStep actor pid posts comments communities = (posts, comments))) ∧
    (∀ cid comment post,
      comments.find? (fun c => c.id == cid) = some comment →
      posts.find? (fun p => p.id == comment.post) = some post →
      ((∃ r, deleteComment actor cid comments posts = .ok r) ↔
        (comment.author = actor ∨ post.author = actor)) ∧
      (¬(comment.author = actor ∨ post.author = actor) →
        deleteComment actor cid comments posts =
          .error (.unauthorized "Not authorized to delete this comment") ∧
        deleteCommentStep actor cid comments posts = (comments, posts))) := by
  constructor
  · intro pid post community hf hfc
    by_cases hperm : post.author = actor ∨ actor ∈ community.moderators
    · have hcond : ¬(post.author ≠ actor ∧ actor ∉ community.moderators) := by
        tauto
      have hok : deletePost actor pid posts comments communities =
          .ok (posts.filter (fun p => p.id != post.id),
               comments.filter (fun c => c.post != pid)) := by
        simp [deletePost, hf, hfc, hcond]
      exact ⟨⟨fun _ => hperm, fun _ => ⟨_, hok⟩⟩, fun hn => absurd hperm hn⟩
    · have hcond : post.author ≠ actor ∧ actor ∉ community.moderators := by
        tauto
      have herr : deletePost actor pid posts comments communities =
          .error (.unauthorized "Not authorized to delete this post") := by
        simp [deletePost, hf, hfc, hcond]
      refine ⟨⟨fun hex => ?_, fun hp => absurd hp hperm⟩,
              fun _ => ⟨herr, ?_⟩⟩
      · obtain ⟨r, hr⟩ := hex
        rw [herr] at hr
        cases hr
      · simp [deletePostStep, herr]
  · intro cid comment post hf hfp
    by_cases hperm : comment.author = actor ∨ post.author = actor
    · have hcond : ¬(comment.author ≠ actor ∧ post.author ≠ actor) := by
        tauto
      cases hres : deleteComment actor cid comments posts with
      | error e =>
        exfalso
        simp [deleteComment, hf, hfp, hcond] at hres
      | ok r =>
        exact ⟨⟨fun _ => hperm, fun _ => ⟨r, rfl⟩⟩, fun hn => absurd hperm hn⟩
    · have hcond : comment.author ≠ actor ∧ post.author ≠ actor := by
        tauto
      have herr : deleteComment actor cid comments posts =
          .error (.unauthorized "Not authorized to delete this comment") := by
        simp [deleteComment, hf, hfp, hcond]
      refine ⟨⟨fun hex => ?_, fun hp => absurd hp hperm⟩,
              fun _ => ⟨herr, ?_⟩⟩
      · obtain ⟨r, hr⟩ := hex
        rw [herr] at hr
        cases hr
      · simp [deleteCommentStep, herr]

/-- C8 witness: actor 1 is both the author of the example post and of the
example comment, so both deletions succeed on the concrete stores. -/
theorem delete_authorization_witness :
    ([examplePost].find? (fun p => p.id == 1) = some examplePost) ∧
    (∃ r, deletePost 1 1 [examplePost] [exampleComment] [exampleCommunity] = .ok r) ∧
    (∃ r, deleteComment 1 1 [exampleComment] [examplePost] = .ok r) := by
  have h := delete_authorization [examplePost] [exampleComment] [exampleCommunity] 1
  refine ⟨rfl, ?_, ?_⟩
  · exact ((h.1 1 examplePost exampleCommunity rfl rfl).1).mpr (Or.inl rfl)
  · exact ((h.2 1 exampleComment examplePost rfl rfl).1).mpr (Or.inl rfl)

/-- C9: a successful `deletePost` removes from the comment store every
comment whose post reference is the deleted post (top-level comments and
nested replies alike, since every comment carries its post reference),
keeps every other comment, and removes the post itself. -/
theorem deletePost_cascades (actor : UserId) (pid : PostId) (posts : List Post)
    (comments : List Comment) (communities : List Community)
    (res : List Post × List Comment)
    (h : deletePost actor pid posts comments communities = .ok res) :
    (∀ c ∈ comments, c.post = pid → c ∉ res.2) ∧
    (∀ c ∈ comments, c.post ≠ pid → c ∈ res.2) ∧
    (∀ p ∈ res.1, p.id ≠ pid) := by
  unfold deletePost at h
  cases hf : posts.find? (fun p => p.id == pid) with
  | none => simp [hf] at h
  | some post =>
    simp only [hf] at h
    cases hfc : communities.find? (fun co => co.id == post.community) with
    | none => simp [hfc] at h
    | some community =>
      simp only [hfc] at h
      by_cases hcond : post.author ≠ actor ∧ actor ∉ community.moderators
      · rw [if_pos hcond] at h
        simp at h
      · rw [if_neg hcond] at h
        simp only [Except.ok.injEq] at h
        subst h
        have hpid : post.id = pid := by
          have := List.find?_some hf
          simpa using this
        refine ⟨?_, ?_, ?_⟩
        · intro c hc hcp hmem
          rcases List.mem_filter.mp hmem with ⟨-, hb⟩
          simp [hcp] at hb
        · intro c hc hcp
          exact List.mem_filter.mpr ⟨hc, by simpa [bne_iff_ne] using hcp⟩
        · intro p hp
          rcases List.mem_filter.mp hp with ⟨-, hb⟩
          have hne : p.id ≠ post.id := by simpa [bne_iff_ne] using hb
          rw [hpid] at hne
          exact hne

/-- C9 witness: deleting the example post (actor 1 is its author) removes
the one comment referencing it, leaving both stores empty. -/
theorem deletePost_cascades_witness :
    (deletePost 1 1 [examplePost] [exampleComment] [exampleCommunity] =
      .ok ([], [])) ∧
    (∀ c ∈ [exampleComment], c.post = 1 → c ∉ (([], []) : List Post × List Comment).2) := by
  have h := deletePost_cascades 1 1 [examplePost] [exampleComment]
    [exampleCommunity] ([], []) rfl
  exact ⟨rfl, h.1⟩

/-- C10 counterexample: the JSON body with name equal to the boolean
`false` escapes the truthiness strip (`false` is falsy), is cast by
Mongoose to the string "false", which passes every name validator (5
alphanumeric characters), so a moderator's update request renames the
community. -/
theorem updateCommunity_rename_by_false_cex :
    updateCommunity exampleCommunity 1
        { name := some (BodyValue.boolean false) } =
      .ok { exampleCommunity with name := "false" } ∧
    ({ exampleCommunity with name := "false" } : Community).name ≠
      exampleCommunity.name :=
  ⟨rfl, by decide⟩

theorem updateCommunityStep_name_of_str (c : Community) (a : UserId)
    (b : CommunityUpdateBody)
    (hb : ∀ v, b.name = some v → ∃ s, v = BodyValue.str s) :
    (updateCommunityStep c a b).name = c.name := by
  by_cases hm : a ∈ c.moderators
  · cases hn : b.name with
    | none =>
      by_cases hd : (match b.description with
          | some s => decide (s.length ≤ 500)
          | none => true) = true
      · simp [updateCommunityStep, updateCommunity, hm, hn, hd]
      · simp [updateCommunityStep, updateCommunity, hm, hn, hd]
    | some v =>
      obtain ⟨s, rfl⟩ := hb v hn
      by_cases hs : s = ""
      · subst hs
        have hv : communityNameValid "" = false := rfl
        simp [updateCommunityStep, updateCommunity, hm, hn,
              BodyValue.truthy, BodyValue.castString, hv]
      · by_cases hd : (match b.description with
            | some s => decide (s.length ≤ 500)
            | none => true) = true
        · simp [updateCommunityStep, updateCommunity, hm, hn, hs,
                BodyValue.truthy, hd]
        · simp [updateCommunityStep, updateCommunity, hm, hn, hs,
                BodyValue.truthy, hd]
  · simp [updateCommunityStep, updateCommunity, hm]

/-- C10 (amended): `updateCommunity` leaves the community's name unchanged
for every request whose name field is absent or a JSON string — a truthy
(nonempty) string is stripped from the body before the update and the
empty string fails the schema's name validators, so no finite sequence of
such requests can rename a community.  The restriction to strings is
forced: a falsy non-string name (the JSON boolean `false`) escapes the
strip, is cast by Mongoose to the valid name string "false", and does
rename the community. -/
theorem updateCommunity_string_names_never_rename (c : Community)
    (reqs : List (UserId × CommunityUpdateBody))
    (h : ∀ r ∈ reqs, ∀ v, r.2.name = some v → ∃ s, v = BodyValue.str s) :
    (reqs.foldl (fun s r => updateCommunityStep s r.1 r.2) c).name = c.name := by
  induction reqs generalizing c with
  | nil => rfl
  | cons r rest ih =>
    rw [List.foldl_cons]
    have h1 := h r (List.mem_cons_self r rest)
    have h2 : ∀ q ∈ rest, ∀ v, q.2.name = some v → ∃ s, v = BodyValue.str s :=
      fun q hq => h q (List.mem_cons_of_mem r hq)
    exact (ih _ h2).trans (updateCommunityStep_name_of_str c r.1 r.2 h1)

/-- C10 witness: two update requests with string name fields ("bar", then
the empty string) leave the example community's name "foo" unchanged. -/
theorem updateCommunity_string_names_never_rename_witness :
    (∀ r ∈ [((1 : UserId), ({ name := some (BodyValue.str "bar") } : CommunityUpdateBody)),
            (1, { name := some (BodyValue.str "") })],
      ∀ v, r.2.name = some v → ∃ s, v = BodyValue.str s) ∧
    (([((1 : UserId), ({ name := some (BodyValue.str "bar") } : CommunityUpdateBody)),
       (1, { name := some (BodyValue.str "") })].foldl
        (fun s r => updateCommunityStep s r.1 r.2) exampleCommunity).name =
      exampleCommunity.name) := by
  have hh : ∀ r ∈ [((1 : UserId), ({ name := some (BodyValue.str "bar") } : CommunityUpdateBody)),
      (1, { name := some (BodyValue.str "") })],
      ∀ v, r.2.name = some v → ∃ s, v = BodyValue.str s := by
    intro r hr v hv
    simp only [List.mem_cons, List.not_mem_nil, or_false] at hr
    rcases hr with rfl | rfl
    · exact ⟨"bar", (Option.some.inj hv).symm⟩
    · exact ⟨"", (Option.some.inj hv).symm⟩
  exact ⟨hh, updateCommunity_string_names_never_rename exampleCommunity _ hh⟩
